import Mathlib

/-!
Verification of the Nadfun trading bot SDK (TypeScript sources) against its
natural-language specification, via a shallow embedding in Lean 4.

Each section embeds one component of the source tree:
  * `src/trading/gas.ts`        — gas estimation error handling
  * `src/trading/slippage.ts`   — basis-point slippage arithmetic
  * `src/stream/curve/parser.ts`, `src/stream/curve/indexer.ts`
                                — event parsing, chronological sort, indexer
  * `src/stream/curve/stream.ts`, `src/stream/dex/stream.ts`
                                — stream lifecycle and DEX pool discovery
  * `src/trading/trade.ts`      — deadline handling in buy/sell/sellPermit
  * `src/bots/sniper.ts`        — sniper bot rate limiting
  * `src/bots/bundler.ts`       — bundler bot sequential execution

Effectful TypeScript is embedded by passing the external world explicitly:
network calls become function arguments (oracles), thrown Javascript errors
become `Except`, and `Date.now()` becomes an explicit clock parameter.
-/

namespace Nadfun

/-! ## Thrown Javascript values

A value thrown by Javascript code is either a proper `Error` object (carrying
a `message`) or some arbitrary non-`Error` value.  The source frequently
tests `error instanceof Error ? error.message : 'Unknown error'`. -/

/-- A value thrown by Javascript code: an `Error` object with a message, or
any other (non-`Error`) value. -/
inductive JsThrown where
  | errObj (message : String)
  | nonError (description : String)
deriving DecidableEq, Repr

/-- The message extracted by `error instanceof Error ? error.message : 'Unknown error'`. -/
def jsErrorMessage : JsThrown → String
  | .errObj m => m
  | .nonError _ => "Unknown error"

/-- Javascript's `String.prototype.toLowerCase` on the ASCII address strings
this SDK handles: character-wise lower-casing. -/
def jsToLower (s : String) : String := ⟨s.data.map Char.toLower⟩

/-- Lexicographic comparison of character lists by code unit. -/
def charListLt : List Char → List Char → Bool
  | [], [] => false
  | [], _ :: _ => true
  | _ :: _, [] => false
  | a :: as, b :: bs => if a < b then true else if b < a then false else charListLt as bs

/-- Javascript's `<` on strings: lexicographic by code unit. -/
def jsLtString (a b : String) : Bool := charListLt a.data b.data

/-! ## Gas estimation (`src/trading/gas.ts`)

`estimateBuyGas` / `estimateSellGas` / `estimateSellPermitGas` each build
calldata, call `publicClient.estimateGas`, and wrap any thrown error in a
fresh `Error` whose message embeds the original message.  The network call is
embedded as its result: `Except JsThrown Nat` (the estimate, or the thrown
error). -/

/-- `estimateBuyGas` from `src/trading/gas.ts`: returns the network estimate,
or wraps a failure in a new `Error` with an operation-specific message. -/
def estimateBuyGas (networkEstimate : Except JsThrown Nat) : Except JsThrown Nat :=
  match networkEstimate with
  | .ok gas => .ok gas
  | .error e =>
      .error (.errObj ("Gas estimation failed for buy operation: " ++ jsErrorMessage e))

/-- `estimateSellGas` from `src/trading/gas.ts`. -/
def estimateSellGas (networkEstimate : Except JsThrown Nat) : Except JsThrown Nat :=
  match networkEstimate with
  | .ok gas => .ok gas
  | .error e =>
      .error (.errObj ("Gas estimation failed for sell operation: " ++ jsErrorMessage e))

/-- `estimateSellPermitGas` from `src/trading/gas.ts`. -/
def estimateSellPermitGas (networkEstimate : Except JsThrown Nat) : Except JsThrown Nat :=
  match networkEstimate with
  | .ok gas => .ok gas
  | .error e =>
      .error (.errObj ("Gas estimation failed for sell permit operation: " ++ jsErrorMessage e))

/-! ## Slippage arithmetic (`src/trading/slippage.ts`)

Amounts are `bigint` (arbitrary-precision integers, nonnegative in all uses),
embedded as `ℕ`; the slippage percent is a Javascript number, embedded as
`ℚ` (its `Math.floor` is `Int.floor`); `bigint` division truncates toward
zero, which is `Int.tdiv`.  A thrown range error is `Except.error`. -/

/-- The message of the error thrown for an out-of-range slippage percent. -/
def slippageRangeErrorMsg : String :=
  "Slippage percent must be between 0 and 100 (exclusive)"

/-- `calculateMinAmountOut` from `src/trading/slippage.ts`. -/
def calculateMinAmountOut (amountOut : ℕ) (slippagePercent : ℚ) : Except String ℤ :=
  if slippagePercent < 0 ∨ 100 ≤ slippagePercent then
    .error slippageRangeErrorMsg
  else
    let slippageBp : ℤ := ⌊slippagePercent * 100⌋
    let remainingBp : ℤ := 10000 - slippageBp
    .ok (Int.tdiv ((amountOut : ℤ) * remainingBp) 10000)

/-- `calculateMaxAmountIn` from `src/trading/slippage.ts`. -/
def calculateMaxAmountIn (amountIn : ℕ) (slippagePercent : ℚ) : Except String ℤ :=
  if slippagePercent < 0 ∨ 100 ≤ slippagePercent then
    .error slippageRangeErrorMsg
  else
    let slippageBp : ℤ := ⌊slippagePercent * 100⌋
    let totalBp : ℤ := 10000 + slippageBp
    .ok (Int.tdiv ((amountIn : ℤ) * totalBp) 10000)

end Nadfun

namespace Nadfun

/-! ### C1 : gas estimation error propagation -/

/-- **C1 counterexample.**  A revert-shaped error from the network estimation
call is *not* surfaced unchanged by `estimateBuyGas`: the function replaces it
with a new `Error` value carrying a different message. -/
theorem estimateBuyGas_changes_error :
    estimateBuyGas (.error (.errObj "execution reverted")) ≠
      .error (.errObj "execution reverted") := by
  simp only [estimateBuyGas, jsErrorMessage, ne_eq, Except.error.injEq, JsThrown.errObj.injEq]
  decide

/-- **C1 (amended).**  For every gas estimation call whose underlying network
estimation fails with error `e`, the failure is never swallowed — the call
fails — but the surfaced error is a *new* `Error` whose message is an
operation-specific prefix concatenated with the original error's message
(or `"Unknown error"` for non-`Error` throwables); a successful estimate is
returned as-is. -/
theorem estimateGas_wraps_error (e : JsThrown) (gas : ℕ) :
    estimateBuyGas (.error e) =
        .error (.errObj ("Gas estimation failed for buy operation: " ++ jsErrorMessage e)) ∧
      estimateSellGas (.error e) =
        .error (.errObj ("Gas estimation failed for sell operation: " ++ jsErrorMessage e)) ∧
      estimateSellPermitGas (.error e) =
        .error (.errObj ("Gas estimation failed for sell permit operation: " ++ jsErrorMessage e)) ∧
      estimateBuyGas (.ok gas) = .ok gas ∧
      estimateSellGas (.ok gas) = .ok gas ∧
      estimateSellPermitGas (.ok gas) = .ok gas := by
  refine ⟨rfl, rfl, rfl, rfl, rfl, rfl⟩

/-! ### C3 : slippage bounds and range validation -/

/-- **C3.**  For every nonnegative big-integer amount and every slippage
percent `p` with `0 ≤ p < 100`, `calculateMinAmountOut amount p` succeeds
with a value `≤ amount` and `calculateMaxAmountIn amount p` succeeds with a
value `≥ amount`; and for every `p < 0` or `p ≥ 100`, both functions throw
the `InvalidArgument`-style range error instead of returning a value. -/
theorem slippage_bounds (amount : ℕ) (p : ℚ) :
    (0 ≤ p → p < 100 →
      ∃ lo hi : ℤ,
        calculateMinAmountOut amount p = .ok lo ∧
        calculateMaxAmountIn amount p = .ok hi ∧
        lo ≤ (amount : ℤ) ∧ (amount : ℤ) ≤ hi) ∧
    ((p < 0 ∨ 100 ≤ p) →
      calculateMinAmountOut amount p = .error slippageRangeErrorMsg ∧
      calculateMaxAmountIn amount p = .error slippageRangeErrorMsg) := by
  constructor
  · intro h0 h100
    have hnot : ¬ (p < 0 ∨ 100 ≤ p) := by
      push_neg
      exact ⟨h0, h100⟩
    have hbp0 : 0 ≤ ⌊p * 100⌋ := by
      rw [Int.floor_nonneg]
      positivity
    have hbp1 : ⌊p * 100⌋ < 10000 := by
      rw [Int.floor_lt]
      calc p * 100 < 100 * 100 := by
            apply mul_lt_mul_of_pos_right h100
            norm_num
        _ = ((10000 : ℤ) : ℚ) := by norm_num
    refine ⟨Int.tdiv ((amount : ℤ) * (10000 - ⌊p * 100⌋)) 10000,
      Int.tdiv ((amount : ℤ) * (10000 + ⌊p * 100⌋)) 10000, ?_, ?_, ?_, ?_⟩
    · unfold calculateMinAmountOut
      rw [if_neg hnot]
    · unfold calculateMaxAmountIn
      rw [if_neg hnot]
    · have hrem0 : (0 : ℤ) ≤ 10000 - ⌊p * 100⌋ := by omega
      have hnum0 : (0 : ℤ) ≤ (amount : ℤ) * (10000 - ⌊p * 100⌋) :=
        mul_nonneg (by positivity) hrem0
      rw [Int.tdiv_eq_ediv hnum0 (by norm_num)]
      calc (amount : ℤ) * (10000 - ⌊p * 100⌋) / 10000
          ≤ (amount : ℤ) * 10000 / 10000 := by
            apply Int.ediv_le_ediv (by norm_num)
            apply mul_le_mul_of_nonneg_left _ (by positivity)
            omega
        _ = (amount : ℤ) := Int.mul_ediv_cancel _ (by norm_num)
    · have hnum0 : (0 : ℤ) ≤ (amount : ℤ) * (10000 + ⌊p * 100⌋) :=
        mul_nonneg (by positivity) (by omega)
      rw [Int.tdiv_eq_ediv hnum0 (by norm_num)]
      calc (amount : ℤ)
          = (amount : ℤ) * 10000 / 10000 := (Int.mul_ediv_cancel _ (by norm_num)).symm
        _ ≤ (amount : ℤ) * (10000 + ⌊p * 100⌋) / 10000 := by
            apply Int.ediv_le_ediv (by norm_num)
            apply mul_le_mul_of_nonneg_left _ (by positivity)
            omega
  · intro hbad
    rw [calculateMinAmountOut, if_pos hbad, calculateMaxAmountIn, if_pos hbad]
    exact ⟨rfl, rfl⟩

/-- **C3 witness.**  Concrete instance: `amount = 100`, `p = 5` is in range
with `95 ≤ 100 ≤ 105`, and `p = 101` is rejected by both functions. -/
theorem slippage_bounds_witness :
    (∃ lo hi : ℤ,
      calculateMinAmountOut 100 5 = .ok lo ∧
      calculateMaxAmountIn 100 5 = .ok hi ∧
      lo ≤ (100 : ℤ) ∧ (100 : ℤ) ≤ hi) ∧
    (calculateMinAmountOut 100 101 = .error slippageRangeErrorMsg ∧
      calculateMaxAmountIn 100 101 = .error slippageRangeErrorMsg) :=
  ⟨(slippage_bounds 100 5).1 (by norm_num) (by norm_num),
    (slippage_bounds 100 101).2 (by norm_num)⟩

end Nadfun

namespace Nadfun

/-! ## Chronological event ordering (`src/stream/curve/parser.ts`,
`src/stream/dex/parser.ts`)

`sortEventsChronologically` is generic over any record carrying the ordering
key `(blockNumber, transactionIndex, logIndex)`; we embed such records as
`OrderedEvent π` with any payload type `π`.  `Array.prototype.sort` is a
stable sort under the comparator, and the unique stable sort is insertion
sort with the relation "comparator result ≤ 0". -/

/-- A record with the chronological ordering key plus an arbitrary payload,
matching the source's generic bound
`T extends (blockNumber; transactionIndex; logIndex)`. -/
structure OrderedEvent (π : Type) where
  blockNumber : ℕ
  transactionIndex : ℕ
  logIndex : ℕ
  payload : π
deriving DecidableEq, Repr

/-- The comparator body of `sortEventsChronologically`: compares by
`blockNumber`, then `transactionIndex`, then `logIndex`, via subtraction. -/
def compareEvents {π : Type} (a b : OrderedEvent π) : ℤ :=
  if a.blockNumber ≠ b.blockNumber then (a.blockNumber : ℤ) - b.blockNumber
  else if a.transactionIndex ≠ b.transactionIndex then
    (a.transactionIndex : ℤ) - b.transactionIndex
  else (a.logIndex : ℤ) - b.logIndex

/-- The "sorts before or ties" relation induced by the comparator. -/
def eventRel {π : Type} (a b : OrderedEvent π) : Prop := compareEvents a b ≤ 0

instance {π : Type} : DecidableRel (eventRel (π := π)) := fun a b =>
  inferInstanceAs (Decidable (compareEvents a b ≤ 0))

/-- Non-strict lexicographic order on the key `(blockNumber,
transactionIndex, logIndex)`. -/
def keyLe {π : Type} (a b : OrderedEvent π) : Prop :=
  a.blockNumber < b.blockNumber ∨
    (a.blockNumber = b.blockNumber ∧
      (a.transactionIndex < b.transactionIndex ∨
        (a.transactionIndex = b.transactionIndex ∧ a.logIndex ≤ b.logIndex)))

/-- Strict lexicographic order on the key. -/
def keyLt {π : Type} (a b : OrderedEvent π) : Prop :=
  a.blockNumber < b.blockNumber ∨
    (a.blockNumber = b.blockNumber ∧
      (a.transactionIndex < b.transactionIndex ∨
        (a.transactionIndex = b.transactionIndex ∧ a.logIndex < b.logIndex)))

theorem eventRel_iff_keyLe {π : Type} (a b : OrderedEvent π) :
    eventRel a b ↔ keyLe a b := by
  unfold eventRel compareEvents keyLe
  split_ifs with h1 h2 <;> omega

theorem keyLt_keyLe {π : Type} {a b : OrderedEvent π} (h : keyLt a b) : keyLe a b := by
  unfold keyLt at h
  unfold keyLe
  omega

instance {π : Type} : IsTotal (OrderedEvent π) eventRel :=
  ⟨fun a b => by
    rw [eventRel_iff_keyLe, eventRel_iff_keyLe]
    unfold keyLe
    omega⟩

instance {π : Type} : IsTrans (OrderedEvent π) eventRel :=
  ⟨fun a b c hab hbc => by
    rw [eventRel_iff_keyLe] at hab hbc ⊢
    unfold keyLe at hab hbc ⊢
    omega⟩

/-- `sortEventsChronologically` from the stream parsers: the stable sort of
the events under the three-component comparator. -/
def sortEventsChronologically {π : Type} (events : List (OrderedEvent π)) :
    List (OrderedEvent π) :=
  events.insertionSort eventRel

/-- `Array.prototype.sort` sorts the receiver in place and returns it.  We
embed the heap by a store mapping array references to their contents;
the source's `return events.sort(...)` becomes: return the same reference,
with the store updated at that reference only. -/
def sortEventsChronologicallyInPlace {π : Type} (r : ℕ)
    (store : ℕ → List (OrderedEvent π)) : ℕ × (ℕ → List (OrderedEvent π)) :=
  (r, fun q => if q = r then sortEventsChronologically (store q) else store q)

end Nadfun

namespace Nadfun

/-! ### C4 : sorting is idempotent and chronologically non-decreasing -/

/-- **C4.**  For every list of events (each carrying `blockNumber`,
`transactionIndex`, `logIndex`), sorting twice equals sorting once, and the
sorted result is non-decreasing under the lexicographic key
`(blockNumber, transactionIndex, logIndex)`. -/
theorem sortEventsChronologically_idempotent_sorted {π : Type}
    (events : List (OrderedEvent π)) :
    sortEventsChronologically (sortEventsChronologically events) =
        sortEventsChronologically events ∧
      (sortEventsChronologically events).Pairwise keyLe := by
  constructor
  · exact (List.sorted_insertionSort eventRel events).insertionSort_eq
  · exact (List.sorted_insertionSort eventRel events).imp
      (fun h => (eventRel_iff_keyLe _ _).mp h)

/-! ### C10 : sorting is an in-place permutation -/

/-- **C10.**  `sortEventsChronologically` sorts its argument array in place
and returns the very same array reference (not a copy); the new contents of
that array are a permutation of the old contents (no event added, duplicated,
or dropped), and every other array in the store is untouched. -/
theorem sortEventsChronologicallyInPlace_spec {π : Type} (r : ℕ)
    (store : ℕ → List (OrderedEvent π)) :
    (sortEventsChronologicallyInPlace r store).1 = r ∧
      ((sortEventsChronologicallyInPlace r store).2 r).Perm (store r) ∧
      (∀ q : ℕ, q ≠ r → (sortEventsChronologicallyInPlace r store).2 q = store q) := by
  refine ⟨rfl, ?_, ?_⟩
  · simp only [sortEventsChronologicallyInPlace, if_pos rfl]
    exact List.perm_insertionSort eventRel (store r)
  · intro q hq
    simp only [sortEventsChronologicallyInPlace, if_neg hq]

/-- **C10 witness.**  A concrete two-element store: sorting array `0`
(holding two out-of-order events) leaves array `1` untouched, returns
reference `0`, and permutes the contents. -/
theorem sortEventsChronologicallyInPlace_spec_witness :
    (sortEventsChronologicallyInPlace 0
        (fun q => if q = 0 then
          [⟨2, 0, 0, ()⟩, ⟨1, 0, 0, ()⟩] else [⟨5, 5, 5, ()⟩])).1 = 0 ∧
      ((sortEventsChronologicallyInPlace 0
        (fun q => if q = 0 then
          [⟨2, 0, 0, ()⟩, ⟨1, 0, 0, ()⟩] else [⟨5, 5, 5, ()⟩])).2 0).Perm
        [⟨2, 0, 0, ()⟩, ⟨1, 0, 0, ()⟩] ∧
      (sortEventsChronologicallyInPlace 0
        (fun q => if q = 0 then
          [⟨2, 0, 0, ()⟩, ⟨1, 0, 0, ()⟩] else [⟨5, 5, 5, ()⟩])).2 1 = [⟨5, 5, 5, ()⟩] := by
  have h := sortEventsChronologicallyInPlace_spec (π := Unit) 0
    (fun q => if q = 0 then [⟨2, 0, 0, ()⟩, ⟨1, 0, 0, ()⟩] else [⟨5, 5, 5, ()⟩])
  exact ⟨h.1, by simpa using h.2.1, by simpa using h.2.2 1 (by decide)⟩

end Nadfun

namespace Nadfun

/-! ## Curve event parsing and historical indexing
(`src/stream/curve/parser.ts`, `src/stream/curve/indexer.ts`)

A raw log carries the chain-assigned ordering key and, if it matches one of
the six curve event signatures, decodable content (event type and token);
ABI decoding itself is external and is embedded as that optional content.
The chain is embedded as the list of per-block log lists that `getLogs`
reads block ranges from; the chain head captured once at the start of
`fetchAllEvents` (`getBlockNumber`) is an explicit parameter. -/

/-- The six bonding-curve event kinds of `CURVE_EVENT_ABIS`. -/
inductive CurveEventType where
  | create
  | buy
  | sell
  | sync
  | lock
  | listed
deriving DecidableEq, Repr

/-- Decodable content of a raw log that matches a curve event signature. -/
structure DecodedCurveLog where
  type : CurveEventType
  token : String
deriving DecidableEq, Repr

/-- A raw log as returned by `getLogs`: ordering key plus optional decodable
curve-event content (`none` = unrecognized or malformed log). -/
structure RawLog where
  blockNumber : ℕ
  transactionIndex : ℕ
  logIndex : ℕ
  decoded : Option DecodedCurveLog
deriving DecidableEq, Repr

/-- Payload of a parsed bonding-curve event (beyond the ordering key). -/
structure CurvePayload where
  type : CurveEventType
  token : String
deriving DecidableEq, Repr

/-- A parsed bonding-curve event. -/
abbrev CurveEvent := OrderedEvent CurvePayload

/-- `parseBondingCurveEvent` from `src/stream/curve/parser.ts`: decodes the
log content and attaches the ordering key fields copied from the log. -/
def parseBondingCurveEvent (log : RawLog) : Option CurveEvent :=
  log.decoded.map fun d =>
    { blockNumber := log.blockNumber
      transactionIndex := log.transactionIndex
      logIndex := log.logIndex
      payload := { type := d.type, token := d.token } }

/-- The event-type filter of `Indexer.processLogs`: `undefined` passes
everything, an array passes exactly its members (an empty array passes
nothing, as in the source where an empty array still builds a `Set`). -/
def passesEventTypeFilter (eventTypes : Option (List CurveEventType))
    (e : CurveEvent) : Bool :=
  match eventTypes with
  | none => true
  | some ts => ts.contains e.payload.type

/-- The token filter of `Indexer.processLogs`: lower-cased membership. -/
def passesTokenFilter (tokenFilter : Option (List String)) (e : CurveEvent) : Bool :=
  match tokenFilter with
  | none => true
  | some ts => (ts.map jsToLower).contains (jsToLower e.payload.token)

/-- One iteration of the `Indexer.processLogs` loop: parse the log, drop it
if unparseable, then apply the event-type filter and the token filter. -/
def siftLog (eventTypes : Option (List CurveEventType))
    (tokenFilter : Option (List String)) (log : RawLog) : Option CurveEvent :=
  match parseBondingCurveEvent log with
  | none => none
  | some e =>
      if passesEventTypeFilter eventTypes e && passesTokenFilter tokenFilter e then
        some e
      else
        none

/-- `Indexer.processLogs` from `src/stream/curve/indexer.ts`: filter-parse
every log, then sort chronologically. -/
def processLogs (eventTypes : Option (List CurveEventType))
    (tokenFilter : Option (List String)) (logs : List RawLog) : List CurveEvent :=
  sortEventsChronologically (logs.filterMap (siftLog eventTypes tokenFilter))

/-- `publicClient.getLogs` over the inclusive block range
`[fromBlock, toBlock]`: the logs of those blocks, in chain order. -/
def getLogs (chain : List (List RawLog)) (fromBlock toBlock : ℕ) : List RawLog :=
  ((List.range' fromBlock (toBlock + 1 - fromBlock)).map fun b => chain.getD b []).flatten

/-- `Indexer.fetchEvents` from `src/stream/curve/indexer.ts`: one bounded
log query, processed and chronologically sorted. -/
def fetchEvents (chain : List (List RawLog)) (fromBlock toBlock : ℕ)
    (eventTypes : Option (List CurveEventType))
    (tokenFilter : Option (List String)) : List CurveEvent :=
  processLogs eventTypes tokenFilter (getLogs chain fromBlock toBlock)

/-- The `while (currentBlock <= targetBlock)` loop of
`Indexer.fetchAllEvents`, with explicit fuel (the loop advances the cursor
by at least one block per iteration when `batchSize ≥ 1`, so
`targetBlock + 1 - startBlock` fuel is always enough; for `batchSize = 0`
the source loop does not terminate). -/
def fetchAllEventsGo (chain : List (List RawLog))
    (eventTypes : Option (List CurveEventType))
    (tokenFilter : Option (List String)) (targetBlock batchSize : ℕ) :
    ℕ → ℕ → List CurveEvent
  | 0, _ => []
  | fuel + 1, currentBlock =>
    if currentBlock ≤ targetBlock then
      let toBlock := min (currentBlock + batchSize - 1) targetBlock
      let events := fetchEvents chain currentBlock toBlock eventTypes tokenFilter
      if targetBlock ≤ toBlock then
        events
      else
        events ++ fetchAllEventsGo chain eventTypes tokenFilter targetBlock batchSize
          fuel (toBlock + 1)
    else []

/-- `Indexer.fetchAllEvents` from `src/stream/curve/indexer.ts`:
batch-fetches `[startBlock, targetBlock]` (where `targetBlock` is the chain
head read once, up front), concatenating the per-batch results and sorting
the total chronologically. -/
def fetchAllEvents (chain : List (List RawLog)) (startBlock batchSize : ℕ)
    (eventTypes : Option (List CurveEventType))
    (tokenFilter : Option (List String)) (targetBlock : ℕ) : List CurveEvent :=
  sortEventsChronologically
    (fetchAllEventsGo chain eventTypes tokenFilter targetBlock batchSize
      (targetBlock + 1 - startBlock) startBlock)

/-! ### Chain well-formedness

A canonical chain history delivers, for block `b`, only logs stamped with
`blockNumber = b`, strictly increasing in `(transactionIndex, logIndex)`
within the block (the spec's "ordering key, strictly increasing within one
chain's canonical history"). -/

/-- Strict lexicographic order on a raw log's ordering key. -/
def rawKeyLt (a b : RawLog) : Prop :=
  a.blockNumber < b.blockNumber ∨
    (a.blockNumber = b.blockNumber ∧
      (a.transactionIndex < b.transactionIndex ∨
        (a.transactionIndex = b.transactionIndex ∧ a.logIndex < b.logIndex)))

/-- Boolean form of `rawKeyLt`. -/
def rawKeyLtB (a b : RawLog) : Bool :=
  decide (a.blockNumber < b.blockNumber) ||
    (decide (a.blockNumber = b.blockNumber) &&
      (decide (a.transactionIndex < b.transactionIndex) ||
        (decide (a.transactionIndex = b.transactionIndex) &&
          decide (a.logIndex < b.logIndex))))

/-- Boolean pairwise-strictly-increasing check. -/
def pairwiseRawLt : List RawLog → Bool
  | [] => true
  | x :: xs => xs.all (fun y => rawKeyLtB x y) && pairwiseRawLt xs

/-- A well-formed chain: each block holds only logs stamped with its own
block number, strictly increasing in the ordering key. -/
def chainWF (chain : List (List RawLog)) : Bool :=
  (List.range chain.length).all fun b =>
    (chain.getD b []).all (fun lg => lg.blockNumber == b) && pairwiseRawLt (chain.getD b [])

end Nadfun

namespace Nadfun

theorem rawKeyLtB_iff (a b : RawLog) : rawKeyLtB a b = true ↔ rawKeyLt a b := by
  unfold rawKeyLtB rawKeyLt
  simp only [Bool.or_eq_true, Bool.and_eq_true, decide_eq_true_eq]

theorem pairwiseRawLt_pairwise {logs : List RawLog} (h : pairwiseRawLt logs = true) :
    logs.Pairwise rawKeyLt := by
  induction logs with
  | nil => exact List.Pairwise.nil
  | cons x xs ih =>
    rw [pairwiseRawLt, Bool.and_eq_true, List.all_eq_true] at h
    exact List.Pairwise.cons (fun y hy => (rawKeyLtB_iff x y).mp (h.1 y hy)) (ih h.2)

theorem chainWF_getD {chain : List (List RawLog)} (hwf : chainWF chain = true) (b : ℕ) :
    (∀ lg ∈ chain.getD b [], lg.blockNumber = b) ∧
      (chain.getD b []).Pairwise rawKeyLt := by
  by_cases hb : b < chain.length
  · rw [chainWF, List.all_eq_true] at hwf
    have := hwf b (List.mem_range.mpr hb)
    rw [Bool.and_eq_true, List.all_eq_true] at this
    exact ⟨fun lg hlg => by simpa using this.1 lg hlg, pairwiseRawLt_pairwise this.2⟩
  · rw [List.getD_eq_default _ _ (le_of_not_lt hb)]
    exact ⟨by simp, List.Pairwise.nil⟩

theorem getLogs_pairwise {chain : List (List RawLog)} (hwf : chainWF chain = true)
    (a b : ℕ) : (getLogs chain a b).Pairwise rawKeyLt := by
  unfold getLogs
  rw [List.pairwise_flatten]
  constructor
  · intro l hl
    rw [List.mem_map] at hl
    obtain ⟨blk, _, rfl⟩ := hl
    exact (chainWF_getD hwf blk).2
  · rw [List.pairwise_map]
    have hr : (List.range' a (b + 1 - a)).Pairwise (· < ·) := List.pairwise_lt_range' _ _
    refine hr.imp ?_
    intro b1 b2 hlt x hx y hy
    have hx' := (chainWF_getD hwf b1).1 x hx
    have hy' := (chainWF_getD hwf b2).1 y hy
    exact Or.inl (by omega)

theorem siftLog_key {ets : Option (List CurveEventType)} {tf : Option (List String)}
    {lg : RawLog} {e : CurveEvent} (h : siftLog ets tf lg = some e) :
    e.blockNumber = lg.blockNumber ∧ e.transactionIndex = lg.transactionIndex ∧
      e.logIndex = lg.logIndex := by
  unfold siftLog parseBondingCurveEvent at h
  cases hd : lg.decoded with
  | none => rw [hd] at h; simp at h
  | some d =>
    rw [hd] at h
    simp only [Option.map_some'] at h
    split_ifs at h
    injection h with h
    subst h
    exact ⟨rfl, rfl, rfl⟩

theorem filterMap_siftLog_pairwise {ets : Option (List CurveEventType)}
    {tf : Option (List String)} {logs : List RawLog}
    (h : logs.Pairwise rawKeyLt) :
    (logs.filterMap (siftLog ets tf)).Pairwise keyLt := by
  rw [List.pairwise_filterMap]
  refine h.imp ?_
  intro a b hab e he e' he'
  have hk := siftLog_key (Option.mem_def.mp he)
  have hk' := siftLog_key (Option.mem_def.mp he')
  unfold rawKeyLt at hab
  unfold keyLt
  omega

theorem processLogs_of_pairwise {ets : Option (List CurveEventType)}
    {tf : Option (List String)} {logs : List RawLog}
    (h : logs.Pairwise rawKeyLt) :
    processLogs ets tf logs = logs.filterMap (siftLog ets tf) := by
  unfold processLogs sortEventsChronologically
  refine List.Sorted.insertionSort_eq ?_
  exact (filterMap_siftLog_pairwise h).imp
    (fun hlt => (eventRel_iff_keyLe _ _).mpr (keyLt_keyLe hlt))

theorem getLogs_split {chain : List (List RawLog)} {a m t : ℕ}
    (ha : a ≤ m + 1) (hm : m ≤ t) :
    getLogs chain a m ++ getLogs chain (m + 1) t = getLogs chain a t := by
  unfold getLogs
  rw [← List.flatten_append, ← List.map_append]
  have hr := List.range'_append a (m + 1 - a) (t - m) 1
  have h1 : a + 1 * (m + 1 - a) = m + 1 := by omega
  have h2 : t - m + (m + 1 - a) = t + 1 - a := by omega
  have h3 : t + 1 - (m + 1) = t - m := by omega
  rw [h1, h2] at hr
  rw [h3, hr]

theorem fetchAllEventsGo_eq {chain : List (List RawLog)}
    {ets : Option (List CurveEventType)} {tf : Option (List String)}
    {targetBlock batchSize : ℕ} (hwf : chainWF chain = true)
    (hbs : 1 ≤ batchSize) :
    ∀ fuel currentBlock, targetBlock + 1 - currentBlock ≤ fuel →
      fetchAllEventsGo chain ets tf targetBlock batchSize fuel currentBlock =
        (getLogs chain currentBlock targetBlock).filterMap (siftLog ets tf) := by
  intro fuel
  induction fuel with
  | zero =>
    intro currentBlock hc
    have hz : targetBlock + 1 - currentBlock = 0 := by omega
    rw [fetchAllEventsGo, getLogs, hz]
    simp
  | succ fuel ih =>
    intro currentBlock hc
    by_cases hct : currentBlock ≤ targetBlock
    · rw [fetchAllEventsGo, if_pos hct]
      simp only
      have htb1 : currentBlock ≤ min (currentBlock + batchSize - 1) targetBlock := by
        omega
      have htb2 : min (currentBlock + batchSize - 1) targetBlock ≤ targetBlock :=
        min_le_right _ _
      by_cases hend : targetBlock ≤ min (currentBlock + batchSize - 1) targetBlock
      · rw [if_pos hend]
        have heq : min (currentBlock + batchSize - 1) targetBlock = targetBlock := by
          omega
        rw [heq, fetchEvents, processLogs_of_pairwise (getLogs_pairwise hwf _ _)]
      · rw [if_neg hend]
        rw [fetchEvents, processLogs_of_pairwise (getLogs_pairwise hwf _ _)]
        rw [ih (min (currentBlock + batchSize - 1) targetBlock + 1) (by omega)]
        rw [← List.filterMap_append, getLogs_split (by omega) (by omega)]
    · rw [fetchAllEventsGo, if_neg hct]
      have hz : targetBlock + 1 - currentBlock = 0 := by omega
      rw [getLogs, hz]
      simp

/-! ### C2 : batched indexing refines single-range indexing -/

/-- **C2.**  For every well-formed chain, every `startBlock`, every
`batchSize ≥ 1`, a head `targetBlock` captured once at the start, and any
event-type / token filters, `fetchAllEvents` returns the same events, in the
same order, as a single `fetchEvents` call over the whole range
`[startBlock, targetBlock]`. -/
theorem fetchAllEvents_eq_fetchEvents (chain : List (List RawLog))
    (ets : Option (List CurveEventType)) (tf : Option (List String))
    (startBlock batchSize targetBlock : ℕ)
    (hbs : 1 ≤ batchSize) (hwf : chainWF chain = true) :
    fetchAllEvents chain startBlock batchSize ets tf targetBlock =
      fetchEvents chain startBlock targetBlock ets tf := by
  unfold fetchAllEvents
  rw [fetchAllEventsGo_eq hwf hbs (targetBlock + 1 - startBlock) startBlock (le_refl _)]
  rfl

/-- **C2 witness.**  A concrete three-block chain with logs (one
unparseable, one filtered out by token), `batchSize = 1`: batched and
single-range fetches agree. -/
theorem fetchAllEvents_eq_fetchEvents_witness :
    1 ≤ 1 ∧
      chainWF
        [[⟨0, 0, 0, some ⟨.create, "0xAA"⟩⟩],
         [⟨1, 0, 0, some ⟨.buy, "0xBB"⟩⟩, ⟨1, 0, 1, none⟩],
         [⟨2, 1, 0, some ⟨.create, "0xCC"⟩⟩]] = true ∧
      fetchAllEvents
          [[⟨0, 0, 0, some ⟨.create, "0xAA"⟩⟩],
           [⟨1, 0, 0, some ⟨.buy, "0xBB"⟩⟩, ⟨1, 0, 1, none⟩],
           [⟨2, 1, 0, some ⟨.create, "0xCC"⟩⟩]]
          0 1 (some [.create]) (some ["0xaa", "0xcc"]) 2 =
        fetchEvents
          [[⟨0, 0, 0, some ⟨.create, "0xAA"⟩⟩],
           [⟨1, 0, 0, some ⟨.buy, "0xBB"⟩⟩, ⟨1, 0, 1, none⟩],
           [⟨2, 1, 0, some ⟨.create, "0xCC"⟩⟩]]
          0 2 (some [.create]) (some ["0xaa", "0xcc"]) :=
  ⟨le_refl 1, by decide,
    fetchAllEvents_eq_fetchEvents _ (some [.create]) (some ["0xaa", "0xcc"])
      0 1 2 (le_refl 1) (by decide)⟩

end Nadfun

namespace Nadfun

/-! ## SniperBot (`src/bots/sniper.ts`)

`handleCreateEvent` mutates the bot's statistics and `lastBuyTime`; we embed
it as a state transition.  External inputs are explicit: the clock value
`now` (`Date.now()` at event arrival), the custom filter's outcome (its
promise resolves to a boolean or rejects), and the buy-cycle outcome
(whether the quote/gas/buy sequence in `executeBuy` succeeds or throws). -/

/-- The sniper bot's statistics counters. -/
structure SniperStats where
  totalEvents : ℕ
  totalBuys : ℕ
  successfulBuys : ℕ
  failedBuys : ℕ
  skippedBuys : ℕ
deriving DecidableEq, Repr

/-- Mutable sniper-bot state touched by event handling. -/
structure SniperState where
  stats : SniperStats
  lastBuyTime : ℕ
deriving DecidableEq, Repr

/-- Sniper state at construction: zero counters, `lastBuyTime = 0`. -/
def initialSniperState : SniperState :=
  { stats := ⟨0, 0, 0, 0, 0⟩, lastBuyTime := 0 }

/-- The sniper configuration fields `handleCreateEvent` consults.
`hasCustomFilter` records whether `config.tokenFilter` is set. -/
structure SniperBotConfig where
  minBuyInterval : ℕ
  tokenWhitelist : Option (List String)
  tokenBlacklist : Option (List String)
  hasCustomFilter : Bool
  autoBuy : Bool
deriving DecidableEq, Repr

/-- The token of a Create event (the only event field the filters read). -/
structure CreateEventInfo where
  token : String
deriving DecidableEq, Repr

/-- Whether the buy cycle inside `executeBuy` completes or throws. -/
inductive BuyOutcome where
  | success
  | failure
deriving DecidableEq, Repr

/-- `SniperBot.executeBuy`: increments `totalBuys` and sets `lastBuyTime`
at the start of the attempt, then records success or failure. -/
def executeBuy (outcome : BuyOutcome) (now : ℕ) (st : SniperState) : SniperState :=
  let st1 : SniperState :=
    { st with
      stats := { st.stats with totalBuys := st.stats.totalBuys + 1 }
      lastBuyTime := now }
  match outcome with
  | .success =>
      { st1 with stats := { st1.stats with successfulBuys := st1.stats.successfulBuys + 1 } }
  | .failure =>
      { st1 with stats := { st1.stats with failedBuys := st1.stats.failedBuys + 1 } }

/-- The whitelist check: skip when a non-empty whitelist is configured and
the event's token (compared lower-cased) is absent. -/
def whitelistSkips (cfg : SniperBotConfig) (event : CreateEventInfo) : Bool :=
  match cfg.tokenWhitelist with
  | some wl => !wl.isEmpty && !wl.any (fun a => jsToLower a == jsToLower event.token)
  | none => false

/-- The blacklist check: skip when a non-empty blacklist is configured and
the event's token (compared lower-cased) is present. -/
def blacklistSkips (cfg : SniperBotConfig) (event : CreateEventInfo) : Bool :=
  match cfg.tokenBlacklist with
  | some bl => !bl.isEmpty && bl.any (fun a => jsToLower a == jsToLower event.token)
  | none => false

/-- The custom filter check: skip when the filter resolves to `false` or
throws (`Except.error`). -/
def customFilterSkips (filterOutcome : Except Unit Bool) : Bool :=
  match filterOutcome with
  | .ok true => false
  | .ok false => true
  | .error _ => true

/-- `SniperBot.handleCreateEvent`: count the event, then apply in order the
rate limit, whitelist, blacklist and custom filter, and finally run the buy
if `autoBuy` is enabled.  `filterOutcome` is the custom filter's result
(`Except.error` = the filter threw); it is only consulted when
`hasCustomFilter` is set. -/
def handleCreateEvent (cfg : SniperBotConfig) (event : CreateEventInfo) (now : ℕ)
    (filterOutcome : Except Unit Bool) (buyOutcome : BuyOutcome)
    (st : SniperState) : SniperState :=
  let st1 : SniperState :=
    { st with stats := { st.stats with totalEvents := st.stats.totalEvents + 1 } }
  let skip : SniperState :=
    { st1 with stats := { st1.stats with skippedBuys := st1.stats.skippedBuys + 1 } }
  if now - st.lastBuyTime < (if cfg.minBuyInterval = 0 then 1000 else cfg.minBuyInterval) then
    skip
  else if whitelistSkips cfg event then
    skip
  else if blacklistSkips cfg event then
    skip
  else if cfg.hasCustomFilter && customFilterSkips filterOutcome then
    skip
  else if cfg.autoBuy then
    executeBuy buyOutcome now st1
  else
    st1

end Nadfun

namespace Nadfun

/-- The configuration of the C5 scenario: `minBuyInterval = 1000` ms,
auto-buy enabled, no whitelist / blacklist / custom filter. -/
def sniperTestConfig : SniperBotConfig :=
  { minBuyInterval := 1000
    tokenWhitelist := none
    tokenBlacklist := none
    hasCustomFilter := false
    autoBuy := true }

/-! ### C5 : sniper-bot rate limiting -/

/-- **C5.**  With `minBuyInterval = 1000` ms and auto-buy enabled, two
Create events for tokens passing all filters arriving 500 ms apart (at `t`
and `t + 500`, with `t` past the initial rate-limit window) produce exactly
one buy attempt (`totalBuys = 1`) and exactly one `skippedBuys` increment,
whatever the buy outcome; `lastBuyTime` is set to `t` at the start of the
first attempt, so the second event falls inside the rate-limit window. -/
theorem sniper_two_events_one_buy (t : ℕ) (ht : 1000 ≤ t) (tok1 tok2 : String)
    (bo1 bo2 : BuyOutcome) :
    (handleCreateEvent sniperTestConfig ⟨tok2⟩ (t + 500) (.ok true) bo2
        (handleCreateEvent sniperTestConfig ⟨tok1⟩ t (.ok true) bo1
          initialSniperState)).stats.totalBuys = 1 ∧
      (handleCreateEvent sniperTestConfig ⟨tok2⟩ (t + 500) (.ok true) bo2
        (handleCreateEvent sniperTestConfig ⟨tok1⟩ t (.ok true) bo1
          initialSniperState)).stats.skippedBuys = 1 ∧
      (handleCreateEvent sniperTestConfig ⟨tok2⟩ (t + 500) (.ok true) bo2
        (handleCreateEvent sniperTestConfig ⟨tok1⟩ t (.ok true) bo1
          initialSniperState)).stats.totalEvents = 2 ∧
      (handleCreateEvent sniperTestConfig ⟨tok1⟩ t (.ok true) bo1
        initialSniperState).lastBuyTime = t := by
  have h1 : ¬ (t < 1000) := by omega
  have h2 : t + 500 - t < 1000 := by omega
  cases bo1 <;> cases bo2 <;>
    simp [handleCreateEvent, executeBuy, whitelistSkips, blacklistSkips,
      customFilterSkips, sniperTestConfig, initialSniperState, h1, h2]

/-- **C5 witness.**  Concrete instance at `t = 1000000`. -/
theorem sniper_two_events_one_buy_witness :
    (handleCreateEvent sniperTestConfig ⟨"0xB"⟩ (1000000 + 500) (.ok true) .failure
        (handleCreateEvent sniperTestConfig ⟨"0xA"⟩ 1000000 (.ok true) .success
          initialSniperState)).stats.totalBuys = 1 ∧
      (handleCreateEvent sniperTestConfig ⟨"0xB"⟩ (1000000 + 500) (.ok true) .failure
        (handleCreateEvent sniperTestConfig ⟨"0xA"⟩ 1000000 (.ok true) .success
          initialSniperState)).stats.skippedBuys = 1 ∧
      (handleCreateEvent sniperTestConfig ⟨"0xB"⟩ (1000000 + 500) (.ok true) .failure
        (handleCreateEvent sniperTestConfig ⟨"0xA"⟩ 1000000 (.ok true) .success
          initialSniperState)).stats.totalEvents = 2 ∧
      (handleCreateEvent sniperTestConfig ⟨"0xA"⟩ 1000000 (.ok true) .success
        initialSniperState).lastBuyTime = 1000000 :=
  sniper_two_events_one_buy 1000000 (by omega) "0xA" "0xB" .success .failure

end Nadfun

namespace Nadfun

/-! ## BundlerBot (`src/bots/bundler.ts`)

`execute` walks the operation list strictly sequentially.  Each iteration
runs one per-operation helper (`executeBuy` / `executeSell` /
`executeSellPermit`, whose bodies are fully wrapped in their own
`try`/`catch` and therefore return a result record instead of throwing),
pushes that record, and then — still inside the iteration's `try` — awaits
`waitForTransactionReceipt` when `waitForConfirmation` is enabled and the
operation succeeded.  If that await throws, the iteration's `catch` pushes
a *second*, failure record for the same operation.  The chain/world state
that one operation may change for the next is threaded through the abstract
`step` and `waitReceipt` oracles. -/

/-- The operation kind tag of a bundled operation. -/
inductive BundledOpKind where
  | buy
  | sell
  | sellPermit
deriving DecidableEq, Repr

/-- A bundled operation: kind, token, human-readable amount, optional
per-operation slippage. -/
structure BundledOperation where
  type : BundledOpKind
  token : String
  amountIn : String
  slippagePercent : Option ℚ
deriving DecidableEq, Repr

/-- The outcome of running one operation against the chain: a transaction
hash plus the quoted expected amount, or a failure message (insufficient
balance, thrown error, ...). -/
inductive OpOutcome where
  | completed (txHash : String) (expectedAmount : ℕ)
  | failed (msg : String)
deriving DecidableEq, Repr

/-- `BundledOperationResult` from `src/bots/bundler.ts`. -/
structure BundledOperationResult where
  operation : BundledOperation
  success : Bool
  txHash : Option String
  error : Option String
  expectedAmount : Option ℕ
deriving DecidableEq, Repr

/-- The result record pushed for one operation (success and failure shapes
of `executeBuy` / `executeSell` / `executeSellPermit` and the outer catch). -/
def recordResult (op : BundledOperation) (oc : OpOutcome) : BundledOperationResult :=
  match oc with
  | .completed h amt =>
      { operation := op, success := true, txHash := some h,
        error := none, expectedAmount := some amt }
  | .failed m =>
      { operation := op, success := false, txHash := none,
        error := some m, expectedAmount := none }

/-- The message recorded by the outer catch of `execute`:
`error.message || String(error)` (the falsy-empty-message corner is not
distinguished, as addresses of the thrown value's rendering are opaque). -/
def jsCatchMessage : JsThrown → String
  | .errObj m => m
  | .nonError d => d

/-- `BundlerBot.execute`: strictly sequential left-to-right execution.  For
each operation the helper's result record is pushed; when
`waitForConfirmation` is enabled and the operation succeeded (a truthy
transaction hash), `waitForTransactionReceipt` is awaited inside the same
`try` — if it throws, the `catch` pushes a second, failure record for the
same operation and the loop continues with the next one. -/
def bundlerExecute {W : Type} (waitForConfirmation : Bool)
    (step : W → BundledOperation → OpOutcome × W)
    (waitReceipt : W → String → Except JsThrown Unit × W) :
    W → List BundledOperation → List BundledOperationResult × W
  | w, [] => ([], w)
  | w, op :: rest =>
      let oc := step w op
      match oc.1 with
      | .completed h amt =>
          if waitForConfirmation then
            let wr := waitReceipt oc.2 h
            match wr.1 with
            | .ok _ =>
                let tail := bundlerExecute waitForConfirmation step waitReceipt wr.2 rest
                (recordResult op (.completed h amt) :: tail.1, tail.2)
            | .error e =>
                let tail := bundlerExecute waitForConfirmation step waitReceipt wr.2 rest
                (recordResult op (.completed h amt) ::
                    { operation := op, success := false, txHash := none,
                      error := some (jsCatchMessage e), expectedAmount := none } :: tail.1,
                  tail.2)
          else
            let tail := bundlerExecute waitForConfirmation step waitReceipt oc.2 rest
            (recordResult op (.completed h amt) :: tail.1, tail.2)
      | .failed m =>
          let tail := bundlerExecute waitForConfirmation step waitReceipt oc.2 rest
          (recordResult op (.failed m) :: tail.1, tail.2)

/-! ### C6 : bundler result accounting -/

/-- **C6 counterexample.**  With `waitForConfirmation` enabled (the
constructor default), a single operation whose trade succeeds but whose
`waitForTransactionReceipt` throws is recorded *twice* — one success record
and one failure record — so the result count exceeds the input length and
`successful + failed ≠ total` operations. -/
theorem bundlerExecute_receipt_throw_two_records :
    (bundlerExecute true
        (fun (w : Unit) _ => (OpOutcome.completed "0xhash" 100, w))
        (fun w _ => (Except.error (JsThrown.errObj "receipt timeout"), w))
        () [⟨.buy, "0xT", "0.1", none⟩]).1.length = 2 ∧
      ¬ ((bundlerExecute true
          (fun (w : Unit) _ => (OpOutcome.completed "0xhash" 100, w))
          (fun w _ => (Except.error (JsThrown.errObj "receipt timeout"), w))
          () [⟨.buy, "0xT", "0.1", none⟩]).1.length =
        [(⟨.buy, "0xT", "0.1", none⟩ : BundledOperation)].length) := by
  exact ⟨rfl, by decide⟩

/-- **C6 (amended).**  For every list of bundled operations, every initial
world and every per-operation outcome oracle: a failure of any operation
does not prevent execution of the later operations, and — provided no
confirmation wait throws after a successful operation (in particular
whenever `waitForConfirmation` is disabled) — the result list carries
exactly the input operations in order (so its length equals the input
length), and the successful results plus the failed results account for the
whole input.  If a `waitForTransactionReceipt` call throws, the affected
operation is recorded twice (a success record then a failure record). -/
theorem bundlerExecute_results {W : Type} (waitForConfirmation : Bool)
    (step : W → BundledOperation → OpOutcome × W)
    (waitReceipt : W → String → Except JsThrown Unit × W)
    (w : W) (ops : List BundledOperation)
    (hwr : waitForConfirmation = true →
      ∀ (w' : W) (h : String), (waitReceipt w' h).1 = Except.ok ()) :
    (bundlerExecute waitForConfirmation step waitReceipt w ops).1.map
        (fun r => r.operation) = ops ∧
      (bundlerExecute waitForConfirmation step waitReceipt w ops).1.length = ops.length ∧
      (bundlerExecute waitForConfirmation step waitReceipt w ops).1.countP
          (fun r => r.success) +
        (bundlerExecute waitForConfirmation step waitReceipt w ops).1.countP
          (fun r => !r.success) = ops.length := by
  induction ops generalizing w with
  | nil => exact ⟨rfl, rfl, rfl⟩
  | cons op rest ih =>
    rcases hoc : (step w op).1 with ⟨h, amt⟩ | m
    · cases hwfc : waitForConfirmation
      · obtain ⟨ihmap, ihlen, ihcount⟩ := ih (step w op).2
        rw [hwfc] at ihmap ihlen ihcount
        simp only [bundlerExecute, hoc, Bool.false_eq_true, if_false, List.map_cons,
          List.length_cons, List.countP_cons, ihmap, ihlen, recordResult]
        refine ⟨trivial, trivial, ?_⟩
        simp
        omega
      · have hwr' := hwr hwfc
        obtain ⟨ihmap, ihlen, ihcount⟩ := ih (waitReceipt (step w op).2 h).2
        rw [hwfc] at ihmap ihlen ihcount
        simp only [bundlerExecute, hoc, if_true, hwr', List.map_cons, List.length_cons,
          List.countP_cons, ihmap, ihlen, recordResult]
        refine ⟨trivial, trivial, ?_⟩
        simp
        omega
    · obtain ⟨ihmap, ihlen, ihcount⟩ := ih (step w op).2
      simp only [bundlerExecute, hoc, List.map_cons, List.length_cons, List.countP_cons,
        ihmap, ihlen, recordResult]
      refine ⟨trivial, trivial, ?_⟩
      simp
      omega

/-- **C6 witness.**  The spec's three-operation scenario with reliable
receipt waits: operation 2 fails but operation 3 still executes and is
recorded; three results, `2 successful + 1 failed = 3 total`. -/
theorem bundlerExecute_results_witness :
    (bundlerExecute true
        (fun (w : Unit) op =>
          (if op.token = "0xB" then OpOutcome.failed "boom"
            else OpOutcome.completed "0xhash" 5, w))
        (fun w _ => (Except.ok (), w)) ()
        [⟨.buy, "0xA", "0.1", none⟩, ⟨.buy, "0xB", "0.2", none⟩,
          ⟨.sell, "0xC", "10", none⟩]).1.map (fun r => r.operation) =
        [⟨.buy, "0xA", "0.1", none⟩, ⟨.buy, "0xB", "0.2", none⟩,
          ⟨.sell, "0xC", "10", none⟩] ∧
      (bundlerExecute true
        (fun (w : Unit) op =>
          (if op.token = "0xB" then OpOutcome.failed "boom"
            else OpOutcome.completed "0xhash" 5, w))
        (fun w _ => (Except.ok (), w)) ()
        [⟨.buy, "0xA", "0.1", none⟩, ⟨.buy, "0xB", "0.2", none⟩,
          ⟨.sell, "0xC", "10", none⟩]).1.length = 3 ∧
      (bundlerExecute true
        (fun (w : Unit) op =>
          (if op.token = "0xB" then OpOutcome.failed "boom"
            else OpOutcome.completed "0xhash" 5, w))
        (fun w _ => (Except.ok (), w)) ()
        [⟨.buy, "0xA", "0.1", none⟩, ⟨.buy, "0xB", "0.2", none⟩,
          ⟨.sell, "0xC", "10", none⟩]).1.countP (fun r => r.success) +
        (bundlerExecute true
          (fun (w : Unit) op =>
            (if op.token = "0xB" then OpOutcome.failed "boom"
              else OpOutcome.completed "0xhash" 5, w))
          (fun w _ => (Except.ok (), w)) ()
          [⟨.buy, "0xA", "0.1", none⟩, ⟨.buy, "0xB", "0.2", none⟩,
            ⟨.sell, "0xC", "10", none⟩]).1.countP (fun r => !r.success) = 3 :=
  bundlerExecute_results true
    (fun (w : Unit) op =>
      (if op.token = "0xB" then OpOutcome.failed "boom"
        else OpOutcome.completed "0xhash" 5, w))
    (fun w _ => (Except.ok (), w)) ()
    [⟨.buy, "0xA", "0.1", none⟩, ⟨.buy, "0xB", "0.2", none⟩,
      ⟨.sell, "0xC", "10", none⟩]
    (fun _ _ _ => rfl)

end Nadfun

namespace Nadfun

/-! ## TradeExecutor deadlines (`src/trading/trade.ts`)

`Trade.buy` and `Trade.sell` build their calldata parameter records with
`deadline: params.deadline ? BigInt(params.deadline) : BigInt(now/1000 + 3600)`
(Javascript truthiness: an unset — or zero — deadline takes the default);
`Trade.sellPermit` builds `deadline: BigInt(params.deadline)` with no
default.  `Math.floor(Date.now() / 1000)` is the explicit `nowSeconds`. -/

/-- `BuyParams` from `src/types/dex.ts` (runtime-optional deadline). -/
structure TradeBuyParams where
  token : String
  recipient : String
  amountIn : ℕ
  amountOutMin : ℕ
  deadline : Option ℤ
  gasLimit : Option ℕ
  gasPrice : Option ℕ
  nonce : Option ℕ
deriving DecidableEq, Repr

/-- `SellParams` from `src/types/dex.ts` (runtime-optional deadline). -/
structure TradeSellParams where
  token : String
  recipient : String
  amountIn : ℕ
  amountOutMin : ℕ
  deadline : Option ℤ
  gasLimit : Option ℕ
  gasPrice : Option ℕ
  nonce : Option ℕ
deriving DecidableEq, Repr

/-- `SellPermitParams` from `src/types/dex.ts`: the permit-consistent
deadline is required, plus allowance and signature components. -/
structure TradeSellPermitParams where
  token : String
  recipient : String
  amountIn : ℕ
  amountOutMin : ℕ
  amountAllowance : ℕ
  deadline : ℤ
  v : ℕ
  r : String
  s : String
  gasLimit : Option ℕ
  gasPrice : Option ℕ
  nonce : Option ℕ
deriving DecidableEq, Repr

/-- The calldata parameter record built by `Trade.buy`. -/
structure BuyDataParams where
  amountOutMin : ℕ
  token : String
  recipient : String
  deadline : ℤ
deriving DecidableEq, Repr

/-- The calldata parameter record built by `Trade.sell`. -/
structure SellDataParams where
  amountIn : ℕ
  amountOutMin : ℕ
  token : String
  recipient : String
  deadline : ℤ
deriving DecidableEq, Repr

/-- The calldata parameter record built by `Trade.sellPermit`. -/
structure SellPermitDataParams where
  amountIn : ℕ
  amountOutMin : ℕ
  amountAllowance : ℕ
  token : String
  recipient : String
  deadline : ℤ
  v : ℕ
  r : String
  s : String
deriving DecidableEq, Repr

/-- `buyDataParams` as built in `Trade.buy`: a truthy caller deadline is
used as-is, otherwise `nowSeconds + 3600`. -/
def buyDataParams (params : TradeBuyParams) (nowSeconds : ℤ) : BuyDataParams :=
  { amountOutMin := params.amountOutMin
    token := params.token
    recipient := params.recipient
    deadline :=
      match params.deadline with
      | some d => if d ≠ 0 then d else nowSeconds + 3600
      | none => nowSeconds + 3600 }

/-- `sellDataParams` as built in `Trade.sell`. -/
def sellDataParams (params : TradeSellParams) (nowSeconds : ℤ) : SellDataParams :=
  { amountIn := params.amountIn
    amountOutMin := params.amountOutMin
    token := params.token
    recipient := params.recipient
    deadline :=
      match params.deadline with
      | some d => if d ≠ 0 then d else nowSeconds + 3600
      | none => nowSeconds + 3600 }

/-- `sellPermitDataParams` as built in `Trade.sellPermit`: the caller's
deadline is used verbatim — the function reads no clock at all. -/
def sellPermitDataParams (params : TradeSellPermitParams) : SellPermitDataParams :=
  { amountIn := params.amountIn
    amountOutMin := params.amountOutMin
    amountAllowance := params.amountAllowance
    token := params.token
    recipient := params.recipient
    deadline := params.deadline
    v := params.v
    r := params.r
    s := params.s }

/-! ### C7 : deadline defaulting -/

/-- **C7.**  `Trade.buy` and `Trade.sell` substitute `nowSeconds + 3600` as
the deadline when the caller leaves it unset (and use a caller-supplied
nonzero deadline as-is), while `Trade.sellPermit` never substitutes a
default and uses exactly the caller-supplied deadline. -/
theorem trade_deadline_defaults (bp : TradeBuyParams) (sp : TradeSellParams)
    (pp : TradeSellPermitParams) (nowSeconds : ℤ) :
    (bp.deadline = none → (buyDataParams bp nowSeconds).deadline = nowSeconds + 3600) ∧
      (sp.deadline = none → (sellDataParams sp nowSeconds).deadline = nowSeconds + 3600) ∧
      (∀ d : ℤ, bp.deadline = some d → d ≠ 0 →
        (buyDataParams bp nowSeconds).deadline = d) ∧
      (∀ d : ℤ, sp.deadline = some d → d ≠ 0 →
        (sellDataParams sp nowSeconds).deadline = d) ∧
      (sellPermitDataParams pp).deadline = pp.deadline := by
  refine ⟨?_, ?_, ?_, ?_, rfl⟩
  · intro h
    simp [buyDataParams, h]
  · intro h
    simp [sellDataParams, h]
  · intro d h hd
    simp [buyDataParams, h, hd]
  · intro d h hd
    simp [sellDataParams, h, hd]

/-- **C7 witness.**  Concrete parameter records: an unset deadline defaults
to `5000 + 3600` for buy/sell; a supplied deadline `777` is used as-is by
buy/sell; sellPermit uses its required deadline `999` verbatim. -/
theorem trade_deadline_defaults_witness :
    ((buyDataParams ⟨"0xT", "0xW", 1, 1, none, none, none, none⟩ 5000).deadline
        = 5000 + 3600) ∧
      ((sellDataParams ⟨"0xT", "0xW", 1, 1, none, none, none, none⟩ 5000).deadline
        = 5000 + 3600) ∧
      ((buyDataParams ⟨"0xT", "0xW", 1, 1, some 777, none, none, none⟩ 5000).deadline
        = 777) ∧
      ((sellDataParams ⟨"0xT", "0xW", 1, 1, some 777, none, none, none⟩ 5000).deadline
        = 777) ∧
      ((sellPermitDataParams
          ⟨"0xT", "0xW", 1, 1, 1, 999, 27, "0xr", "0xs", none, none, none⟩).deadline
        = 999) := by
  have h1 := trade_deadline_defaults ⟨"0xT", "0xW", 1, 1, none, none, none, none⟩
    ⟨"0xT", "0xW", 1, 1, none, none, none, none⟩
    ⟨"0xT", "0xW", 1, 1, 1, 999, 27, "0xr", "0xs", none, none, none⟩ 5000
  have h2 := trade_deadline_defaults ⟨"0xT", "0xW", 1, 1, some 777, none, none, none⟩
    ⟨"0xT", "0xW", 1, 1, some 777, none, none, none⟩
    ⟨"0xT", "0xW", 1, 1, 1, 999, 27, "0xr", "0xs", none, none, none⟩ 5000
  exact ⟨h1.1 rfl, h1.2.1 rfl, h2.2.2.1 777 rfl (by decide),
    h2.2.2.2.1 777 rfl (by decide), h1.2.2.2.2⟩

end Nadfun

namespace Nadfun

/-! ## DEX pool discovery (`src/stream/dex/stream.ts`,
`Stream.findPoolsForTokens`)

The V3 factory lookup is the external collaborator: `getPool token0 token1`
returns the pool address or throws.  A token equal to the wrapped-native
(WMON) address is skipped up front; the pair is ordered lexicographically by
lower-cased address; the result is kept only when it is a truthy non-zero
address; a per-token throw is caught and discovery continues. -/

/-- The zero address compared against in `findPoolsForTokens`. -/
def zeroAddress : String := "0x0000000000000000000000000000000000000000"

/-- `Stream.findPoolsForTokens` from `src/stream/dex/stream.ts`. -/
def findPoolsForTokens (getPool : String → String → Except JsThrown String)
    (wmonAddress : String) : List String → List String
  | [] => []
  | tokenAddress :: rest =>
    if jsToLower tokenAddress = jsToLower wmonAddress then
      findPoolsForTokens getPool wmonAddress rest
    else
      let pair :=
        if jsLtString (jsToLower tokenAddress) (jsToLower wmonAddress) = true then (tokenAddress, wmonAddress)
        else (wmonAddress, tokenAddress)
      match getPool pair.1 pair.2 with
      | .ok poolAddress =>
          if ¬ poolAddress = "" ∧ ¬ poolAddress = zeroAddress then
            poolAddress :: findPoolsForTokens getPool wmonAddress rest
          else
            findPoolsForTokens getPool wmonAddress rest
      | .error _ => findPoolsForTokens getPool wmonAddress rest

/-! ### C8 : pool discovery skips, excludes, and survives failures -/

/-- **C8.**  In DEX pool discovery: a token equal to the wrapped-native
(WMON) address is skipped without error and contributes no pool; a factory
lookup returning the zero address contributes no pool; and a per-token
lookup failure is caught, so discovery continues with the remaining tokens
instead of aborting. -/
theorem findPoolsForTokens_spec (getPool : String → String → Except JsThrown String)
    (wmonAddress tokenAddress : String) (rest : List String) :
    (jsToLower tokenAddress = jsToLower wmonAddress →
      findPoolsForTokens getPool wmonAddress (tokenAddress :: rest) =
        findPoolsForTokens getPool wmonAddress rest) ∧
      (∀ t0 t1 : String, jsToLower tokenAddress ≠ jsToLower wmonAddress →
        (if jsLtString (jsToLower tokenAddress) (jsToLower wmonAddress) = true then (tokenAddress, wmonAddress)
          else (wmonAddress, tokenAddress)) = (t0, t1) →
        getPool t0 t1 = .ok zeroAddress →
        findPoolsForTokens getPool wmonAddress (tokenAddress :: rest) =
          findPoolsForTokens getPool wmonAddress rest) ∧
      (∀ (t0 t1 : String) (e : JsThrown), jsToLower tokenAddress ≠ jsToLower wmonAddress →
        (if jsLtString (jsToLower tokenAddress) (jsToLower wmonAddress) = true then (tokenAddress, wmonAddress)
          else (wmonAddress, tokenAddress)) = (t0, t1) →
        getPool t0 t1 = .error e →
        findPoolsForTokens getPool wmonAddress (tokenAddress :: rest) =
          findPoolsForTokens getPool wmonAddress rest) := by
  refine ⟨?_, ?_, ?_⟩
  · intro h
    rw [findPoolsForTokens, if_pos h]
  · intro t0 t1 hne hpair hzero
    rw [findPoolsForTokens, if_neg hne]
    simp only [hpair, hzero]
    rw [if_neg]
    simp
  · intro t0 t1 e hne hpair herr
    rw [findPoolsForTokens, if_neg hne]
    simp only [hpair, herr]

/-- **C8 witness.**  A concrete factory over tokens
`["0xWMON", "0xAA", "0xBB", "0xCC"]`: the WMON token is skipped, `0xAA`
maps to the zero address (excluded), `0xBB`'s lookup throws (caught), and
discovery still reaches `0xCC`. -/
theorem findPoolsForTokens_spec_witness :
    (jsToLower "0xWMON" = jsToLower "0xWMON" ∧
      findPoolsForTokens
          (fun t0 _ => if t0 = "0xaa" then .ok zeroAddress
            else if t0 = "0xbb" then .error (.errObj "boom") else .ok "0xPOOL")
          "0xWMON" ["0xWMON", "0xaa", "0xbb", "0xcc"] =
        findPoolsForTokens
          (fun t0 _ => if t0 = "0xaa" then .ok zeroAddress
            else if t0 = "0xbb" then .error (.errObj "boom") else .ok "0xPOOL")
          "0xWMON" ["0xaa", "0xbb", "0xcc"]) ∧
      findPoolsForTokens
          (fun t0 _ => if t0 = "0xaa" then .ok zeroAddress
            else if t0 = "0xbb" then .error (.errObj "boom") else .ok "0xPOOL")
          "0xWMON" ["0xWMON", "0xaa", "0xbb", "0xcc"] = ["0xPOOL"] := by
  refine ⟨⟨rfl, ?_⟩, ?_⟩
  · exact (findPoolsForTokens_spec
      (fun t0 _ => if t0 = "0xaa" then .ok zeroAddress
        else if t0 = "0xbb" then .error (.errObj "boom") else .ok "0xPOOL")
      "0xWMON" "0xWMON" ["0xaa", "0xbb", "0xcc"]).1 rfl
  · decide

end Nadfun

namespace Nadfun

/-! ## Stream lifecycle (`src/stream/curve/stream.ts`,
`src/stream/dex/stream.ts`)

`stop()` begins with `if (!this.isRunning) return;` — when the stream is
not running it changes nothing and releases nothing.  Otherwise it calls
the unwatch handle(s), clears them, clears all listeners, and resets
`isRunning` and `reconnectAttempts`.  Unwatch handles are opaque (`ℕ`
here); `stop` returns the new state together with the handles it invoked.
Listener callbacks are opaque values of a type parameter `κ`, keyed by the
random string ids of `onEvent` / `onSwap`. -/

/-- The mutable state of the bonding-curve `Stream`. -/
structure CurveStreamState (κ : Type) where
  eventTypes : List CurveEventType
  tokenFilter : Option (List String)
  listeners : List (String × κ)
  isRunning : Bool
  watchFn : Option ℕ
  reconnectAttempts : ℕ
deriving DecidableEq, Repr

/-- `Stream.stop` of the curve stream: no-op when not running; otherwise
invoke and drop the watch handle, clear the listeners, reset the run flag
and the reconnect counter. -/
def curveStreamStop {κ : Type} (s : CurveStreamState κ) : CurveStreamState κ × List ℕ :=
  if s.isRunning = false then (s, [])
  else
    ({ s with
        watchFn := none
        listeners := []
        isRunning := false
        reconnectAttempts := 0 },
      s.watchFn.toList)

/-- The mutable state of the DEX swap `Stream`. -/
structure DexStreamState (κ : Type) where
  poolAddresses : List String
  listeners : List (String × κ)
  isRunning : Bool
  watchFunctions : List ℕ
  reconnectAttempts : ℕ
deriving DecidableEq, Repr

/-- `Stream.stop` of the DEX stream: no-op when not running; otherwise
invoke and clear all watchers, clear the listeners, reset the run flag and
the reconnect counter. -/
def dexStreamStop {κ : Type} (s : DexStreamState κ) : DexStreamState κ × List ℕ :=
  if s.isRunning = false then (s, [])
  else
    ({ s with
        watchFunctions := []
        listeners := []
        isRunning := false
        reconnectAttempts := 0 },
      s.watchFunctions)

/-! ### C9 : stop() on a non-running stream is a complete no-op -/

/-- **C9.**  Calling `stop()` when the stream is not running returns
immediately: the entire state — including the registered listener set — is
unchanged and no subscription handle is touched, for both the curve stream
and the DEX stream; listeners registered before `start()` therefore survive
a premature `stop()`. -/
theorem streamStop_noop_when_idle {κ : Type} (s : CurveStreamState κ)
    (d : DexStreamState κ) (hs : s.isRunning = false) (hd : d.isRunning = false) :
    curveStreamStop s = (s, []) ∧ dexStreamStop d = (d, []) := by
  constructor
  · rw [curveStreamStop, if_pos hs]
  · rw [dexStreamStop, if_pos hd]

/-- **C9 witness.**  Concrete idle streams with registered listeners and a
stale watch handle: `stop()` leaves them exactly as they were. -/
theorem streamStop_noop_when_idle_witness :
    curveStreamStop ⟨[.create], some ["0xaa"], [("id1", 7)], false, some 3, 2⟩ =
        (⟨[.create], some ["0xaa"], [("id1", 7)], false, some 3, 2⟩, []) ∧
      dexStreamStop ⟨["0xP"], [("id2", 8)], false, [4, 5], 1⟩ =
        (⟨["0xP"], [("id2", 8)], false, [4, 5], 1⟩, []) :=
  streamStop_noop_when_idle (κ := ℕ)
    ⟨[.create], some ["0xaa"], [("id1", 7)], false, some 3, 2⟩
    ⟨["0xP"], [("id2", 8)], false, [4, 5], 1⟩ rfl rfl

end Nadfun
